import Mathlib

/-!
Shallow embedding of the `vue-scrollactive` component (files
`src/scrollactive.vue` and the unnamed variant of the same component) and
proofs about it.  Scroll positions, element geometry and animation
timestamps are modelled as rationals; DOM elements carry their
`offsetTop`, `clientHeight` and `offsetParent` chain; the document is a
resolution function from element ids to elements.  Event listeners, the
animation-frame queue and the `setTimeout` deferral are modelled as
explicit state in a `Win` record.
-/

namespace Scrollactive

/-- A DOM element as the component reads it: its own `offsetTop`, its
`clientHeight`, and its `offsetParent` chain (ending in `none`). -/
inductive Elem where
  | mk (offsetTop : Rat) (clientHeight : Rat) (offsetParent : Option Elem)

def Elem.offsetTop : Elem → Rat
  | .mk t _ _ => t

def Elem.clientHeight : Elem → Rat
  | .mk _ h _ => h

def Elem.offsetParent : Elem → Option Elem
  | .mk _ _ p => p

/-- `getOffsetTop` restricted to a non-null element: walks the
`offsetParent` chain summing `offsetTop` (the `while (nextElement)` loop). -/
def getOffsetTopElem : Elem → Rat
  | .mk t _ none => t
  | .mk t _ (some p) => t + getOffsetTopElem p

/-- `getOffsetTop(element)`: `yPosition` starts at 0 and the loop body never
runs for a null element, so the result is 0 for `none`. -/
def getOffsetTop : Option Elem → Rat
  | none => 0
  | some e => getOffsetTopElem e

/-- The chain `element, element.offsetParent, element.offsetParent.offsetParent, ...`
visited by the loop of `getOffsetTop`. -/
def offsetChain : Elem → List Elem
  | .mk t h none => [.mk t h none]
  | .mk t h (some p) => .mk t h (some p) :: offsetChain p

/-- The document: resolution from an element id to the element, as
`document.getElementById` does (`none` = no such element). -/
abbrev Dom := String → Option Elem

/-- `hash.substr(1)`: the anchor hash with its leading `#` removed. -/
def hashId (hash : String) : String := hash.drop 1

/-- A navigation item (`.scrollactive-item` element): its anchor hash and
whether it currently carries the active class. -/
structure SAItem where
  hash : String
  active : Bool
deriving DecidableEq

/-- Remove the active class from every item. -/
def clearAll (items : List SAItem) : List SAItem :=
  items.map fun it => { it with active := false }

/-- `classList.add(activeClass)` on the item at index `i` (no-op past the
end of the list). -/
def setActiveAt : List SAItem → Nat → List SAItem
  | [], _ => []
  | it :: rest, 0 => { it with active := true } :: rest
  | it :: rest, n + 1 => it :: setActiveAt rest n

/-- Whether the item at index `j` carries the active class. -/
def activeAt : List SAItem → Nat → Bool
  | [], _ => false
  | it :: _, 0 => it.active
  | _ :: rest, n + 1 => activeAt rest n

/-- Number of items carrying the active class. -/
def countActive (items : List SAItem) : Nat :=
  (items.filter fun it => it.active).length

/-- The `itemchanged` notifications the component emits.  `changed` is the
three-argument emit from `onScroll` (`event, currentItem, lastActiveItem`);
`clicked` is the two-argument emit from `itemClickHandler` (`event, item`).
Items are identified by their index in the registered list. -/
inductive Emit where
  | changed (newItem oldItem : Option Nat)
  | clicked (item : Nat)
deriving DecidableEq

/-- Tracker state: the registered items and `lastActiveItem` (an index, or
`none` for the initial `null`). -/
structure Tracker where
  items : List SAItem
  lastActiveItem : Option Nat
deriving DecidableEq

/-- The loop body of `getCurrentItem` (src/scrollactive.vue): for each item
remove the active class, resolve the target, and test
`distanceFromTop >= targetInViewTop && distanceFromTop < targetInViewBottom`.
On a null target the access `target.clientHeight` raises a TypeError; the
items cleared before the raise stay cleared (JS mutations are not rolled
back), which the returned list records. -/
def getCurrentItemGo (dom : Dom) (offset scrollY : Rat) :
    List SAItem → Nat → Option Nat → List SAItem × Except String (Option Nat)
  | [], _, cur => ([], .ok cur)
  | it :: rest, i, cur =>
    let cleared : SAItem := { it with active := false }
    match dom (hashId it.hash) with
    | none => (cleared :: rest, .error ("TypeError: cannot read clientHeight of null"))
    | some target =>
      let targetInViewTop := getOffsetTop (some target) - offset
      let targetInViewBottom := targetInViewTop + target.clientHeight
      let cur' := if targetInViewTop ≤ scrollY ∧ scrollY < targetInViewBottom then some i else cur
      let r := getCurrentItemGo dom offset scrollY rest (i + 1) cur'
      (cleared :: r.1, r.2)

/-- `getCurrentItem()` of src/scrollactive.vue: scans all registered items
(bounded band membership policy), returning the mutated item list and the
index of the current item (the last one whose band contains `scrollY`). -/
def getCurrentItem (dom : Dom) (offset scrollY : Rat) (items : List SAItem) :
    List SAItem × Except String (Option Nat) :=
  getCurrentItemGo dom offset scrollY items 0 none

/-- `onScroll(event)` of src/scrollactive.vue: runs `getCurrentItem`, emits
`itemchanged(event, currentItem, lastActiveItem)` whenever the computed
current item differs from `lastActiveItem`, updates `lastActiveItem`, and
adds the active class to the current item.  Returns the new tracker state,
the emitted notifications, and the error if `getCurrentItem` threw. -/
def onScroll_vue (dom : Dom) (offset scrollY : Rat) (t : Tracker) :
    Tracker × List Emit × Option String :=
  match getCurrentItem dom offset scrollY t.items with
  | (cleared, .error e) => ({ t with items := cleared }, [], some e)
  | (cleared, .ok currentItem) =>
    let emits := if currentItem ≠ t.lastActiveItem then
        [Emit.changed currentItem t.lastActiveItem] else []
    let last' := if currentItem ≠ t.lastActiveItem then currentItem else t.lastActiveItem
    let items' := match currentItem with
      | some i => setActiveAt cleared i
      | none => cleared
    ({ items := items', lastActiveItem := last' }, emits, none)

/-- The loop of `onScroll` in the unnamed variant: for each item remove the
active class, resolve the target (a null target resolves to offset 0 and
does not throw), and record the item as current when
`distanceFromTop >= getOffsetTop(target) - offset` (unbounded policy). -/
def scanUnboundedGo (dom : Dom) (offset scrollY : Rat) :
    List SAItem → Nat → Option Nat → List SAItem × Option Nat
  | [], _, cur => ([], cur)
  | it :: rest, i, cur =>
    let cleared : SAItem := { it with active := false }
    let target := dom (hashId it.hash)
    let cur' := if getOffsetTop target - offset ≤ scrollY then some i else cur
    let r := scanUnboundedGo dom offset scrollY rest (i + 1) cur'
    (cleared :: r.1, r.2)

/-- `onScroll(event)` of the unnamed variant: unbounded last-qualifying
scan; the emit is additionally guarded by `if (this.lastActiveItem)`, so no
notification fires while `lastActiveItem` is null (in particular on the
first check from `mounted`). -/
def onScroll_part0 (dom : Dom) (offset scrollY : Rat) (t : Tracker) :
    Tracker × List Emit :=
  match scanUnboundedGo dom offset scrollY t.items 0 none with
  | (cleared, currentItem) =>
    let emits := if currentItem ≠ t.lastActiveItem then
        (if t.lastActiveItem.isSome then [Emit.changed currentItem t.lastActiveItem] else [])
      else []
    let last' := if currentItem ≠ t.lastActiveItem then currentItem else t.lastActiveItem
    let items' := match currentItem with
      | some i => setActiveAt cleared i
      | none => cleared
    ({ items := items', lastActiveItem := last' }, emits)

/-- `clientHeight` of a possibly-null element (only read when non-null). -/
def clientHeightOpt : Option Elem → Rat
  | none => 0
  | some e => e.clientHeight

/-- Band-membership qualification used by `getCurrentItem` of
src/scrollactive.vue, as a predicate on a single item. -/
def bandQualifies (dom : Dom) (offset scrollY : Rat) (it : SAItem) : Prop :=
  getOffsetTop (dom (hashId it.hash)) - offset ≤ scrollY ∧
    scrollY < getOffsetTop (dom (hashId it.hash)) - offset + clientHeightOpt (dom (hashId it.hash))

instance (dom : Dom) (offset scrollY : Rat) (it : SAItem) :
    Decidable (bandQualifies dom offset scrollY it) :=
  inferInstanceAs (Decidable (_ ∧ _))

/-- Unbounded qualification used by `onScroll` of the unnamed variant. -/
def unboundedQualifies (dom : Dom) (offset scrollY : Rat) (it : SAItem) : Prop :=
  getOffsetTop (dom (hashId it.hash)) - offset ≤ scrollY

instance (dom : Dom) (offset scrollY : Rat) (it : SAItem) :
    Decidable (unboundedQualifies dom offset scrollY it) :=
  inferInstanceAs (Decidable (_ ≤ _))

/-- Index of the last item (in source order) satisfying `p`. -/
def lastQualifying (p : SAItem → Prop) [DecidablePred p] : List SAItem → Option Nat
  | [] => none
  | it :: rest =>
    match lastQualifying p rest with
    | some j => some (j + 1)
    | none => if p it then some 0 else none

/-- The component configuration (relevant props). -/
structure Config where
  offset : Rat
  duration : Rat
  alwaysTrack : Bool
  clickToScroll : Bool
deriving DecidableEq

/-- Browser window state touched by the component: whether `onScroll` is
attached as a window scroll listener, the ids of outstanding (scheduled and
not yet fired or cancelled) animation-frame callbacks, the next fresh frame
id, the shared global `window.AFRequestID`, the scroll position, and the
number of pending `setTimeout` callbacks that will re-attach the scroll
listener. -/
structure Win where
  scrollListenerAttached : Bool
  scheduled : List Nat
  nextFrameId : Nat
  afRequestID : Option Nat
  scrollY : Rat
  pendingAttachTimeouts : Nat
deriving DecidableEq

/-- `window.requestAnimationFrame`: schedules a callback and returns its
fresh handle. -/
def requestFrame (w : Win) : Nat × Win :=
  (w.nextFrameId,
   { w with scheduled := w.scheduled ++ [w.nextFrameId], nextFrameId := w.nextFrameId + 1 })

/-- `window.cancelAnimationFrame(h)`: removes the callback with handle `h`
from the outstanding set; a no-op on `undefined` (`none`). -/
def cancelFrame (h : Option Nat) (w : Win) : Win :=
  match h with
  | none => w
  | some fid => { w with scheduled := w.scheduled.erase fid }

/-- The closure state one `scrollToTarget` call captures for its `step`
frames: `startingY` (`window.pageYOffset` at start), the target's document
offset, `difference = targetDistanceFromTop - startingY`, and the `start`
timestamp marker (`let start = null`). -/
structure Session where
  startingY : Rat
  targetDistanceFromTop : Rat
  difference : Rat
  start : Option Rat
deriving DecidableEq

/-- The argument of `scrollToTarget`, which in JS may be any value; only
strings pass the `typeof targetId !== 'string'` guard. -/
inductive JSVal where
  | str (s : String)
  | nonString
deriving DecidableEq

/-- `scrollToTarget(targetId)` of src/scrollactive.vue up to the first
`requestAnimationFrame(step)` call: throws on a non-string argument; when
`alwaysTrack` is false, detaches the scroll listener and cancels the frame
whose handle is recorded in `window.AFRequestID`; captures the session and
schedules the first `step` frame, discarding its handle (the return value
of `requestAnimationFrame` on line 255 is not stored anywhere). -/
def scrollToTarget (dom : Dom) (cfg : Config) (targetId : JSVal) (w : Win) :
    Except String (Win × Session) :=
  match targetId with
  | .nonString => .error ("scrollToTarget method requires a DOM Id as parameter.")
  | .str s =>
    let target := dom s
    let w1 := if cfg.alwaysTrack then w
      else cancelFrame w.afRequestID { w with scrollListenerAttached := false }
    let targetDistanceFromTop := getOffsetTop target
    let startingY := w1.scrollY
    let difference := targetDistanceFromTop - startingY
    let w2 := (requestFrame w1).2
    .ok (w2, { startingY := startingY, targetDistanceFromTop := targetDistanceFromTop,
               difference := difference, start := none })

/-- JS truthiness of `!start`: true for `null` and for the number 0. -/
def jsFalsyStart : Option Rat → Bool
  | none => true
  | some x => x == 0

/-- Result of running one `step` frame callback. -/
structure StepOut where
  w : Win
  session : Session
  items : List SAItem
  finalCheckRan : Bool
  err : Option String
deriving DecidableEq

/-- The `step(timestamp)` frame callback of src/scrollactive.vue.  The
easing function produced by the external `bezier-easing` library is an
out-of-scope collaborator (spec section 1) and is passed as a parameter.
`if (!start) start = timestamp` resets the marker whenever it is null or 0;
the position written is
`startingY + easing(progressPercentage) * (difference - offset)`.
While `progress < duration` the next frame is scheduled and its handle
recorded in `window.AFRequestID`; otherwise, when `alwaysTrack` is false,
`getCurrentItem` is re-run once, the current item re-flagged, and a
`setTimeout` is queued that will re-attach the scroll listener. -/
def step_vue (dom : Dom) (cfg : Config) (easing : Rat → Rat)
    (sess : Session) (items : List SAItem) (timestamp : Rat) (w : Win) : StepOut :=
  let start := if jsFalsyStart sess.start then timestamp else sess.start.getD timestamp
  let progress0 := timestamp - start
  let progressPercentage0 := progress0 / cfg.duration
  let progress := if progress0 ≥ cfg.duration then cfg.duration else progress0
  let progressPercentage := if progressPercentage0 ≥ 1 then 1 else progressPercentage0
  let perTick := sess.startingY + easing progressPercentage * (sess.difference - cfg.offset)
  let w1 : Win := { w with scrollY := perTick }
  let sess1 : Session := { sess with start := some start }
  if progress < cfg.duration then
    let r := requestFrame w1
    { w := { r.2 with afRequestID := some r.1 }, session := sess1, items := items,
      finalCheckRan := false, err := none }
  else
    if cfg.alwaysTrack then
      { w := w1, session := sess1, items := items, finalCheckRan := false, err := none }
    else
      match getCurrentItem dom cfg.offset w1.scrollY items with
      | (cleared, .error e) =>
        { w := w1, session := sess1, items := cleared, finalCheckRan := true, err := some e }
      | (cleared, .ok cur) =>
        let items' := match cur with
          | some i => setActiveAt cleared i
          | none => cleared
        { w := { w1 with pendingAttachTimeouts := w1.pendingAttachTimeouts + 1 },
          session := sess1, items := items', finalCheckRan := true, err := none }

/-- The `step(timestamp)` frame callback of the unnamed variant: same
numeric core, but the completion branch re-attaches the scroll listener
immediately (no `setTimeout`, no re-check), and does so unconditionally. -/
def step_part0 (cfg : Config) (easing : Rat → Rat)
    (sess : Session) (timestamp : Rat) (w : Win) : Win × Session :=
  let start := if jsFalsyStart sess.start then timestamp else sess.start.getD timestamp
  let progress0 := timestamp - start
  let progressPercentage0 := progress0 / cfg.duration
  let progress := if progress0 ≥ cfg.duration then cfg.duration else progress0
  let progressPercentage := if progressPercentage0 ≥ 1 then 1 else progressPercentage0
  let perTick := sess.startingY + easing progressPercentage * (sess.difference - cfg.offset)
  let w1 : Win := { w with scrollY := perTick }
  let sess1 : Session := { sess with start := some start }
  if progress < cfg.duration then
    let r := requestFrame w1
    ({ r.2 with afRequestID := some r.1 }, sess1)
  else
    ({ w1 with scrollListenerAttached := true }, sess1)

/-- Running one pending `setTimeout` callback queued by the completion
frame: re-attaches the scroll listener. -/
def runAttachTimeout (w : Win) : Win :=
  if 0 < w.pendingAttachTimeouts then
    { w with scrollListenerAttached := true,
             pendingAttachTimeouts := w.pendingAttachTimeouts - 1 }
  else w

/-- Drive a sequence of `step` frames of src/scrollactive.vue at the given
timestamps, threading session, items and window state; returns the final
states and the scroll position written at each frame. -/
def runStepsVue (dom : Dom) (cfg : Config) (easing : Rat → Rat) :
    List Rat → Session → List SAItem → Win → Session × List SAItem × Win × List Rat
  | [], sess, items, w => (sess, items, w, [])
  | t :: ts, sess, items, w =>
    let o := step_vue dom cfg easing sess items t w
    let r := runStepsVue dom cfg easing ts o.session o.items o.w
    (r.1, r.2.1, r.2.2.1, o.w.scrollY :: r.2.2.2)

/-- `scrollToTargetElement(event)` of the unnamed variant, up to the first
`requestAnimationFrame(step)`: when `alwaysTrack` is false it detaches the
scroll listener, cancels the recorded frame, clears every item's active
class and flags the clicked item; then captures the session and schedules
the first frame (handle discarded). -/
def scrollToTargetElement (dom : Dom) (cfg : Config)
    (clickedIdx : Nat) (clicked : SAItem) (t : Tracker) (w : Win) :
    Tracker × Win × Session :=
  let tw := if cfg.alwaysTrack then (t, w)
    else ({ t with items := setActiveAt (clearAll t.items) clickedIdx },
          cancelFrame w.afRequestID { w with scrollListenerAttached := false })
  let target := dom (hashId clicked.hash)
  let targetDistanceFromTop := getOffsetTop target
  let startingY := tw.2.scrollY
  let difference := targetDistanceFromTop - startingY
  let w2 := (requestFrame tw.2).2
  (tw.1, w2, { startingY := startingY, targetDistanceFromTop := targetDistanceFromTop,
               difference := difference, start := none })

/-- `itemClickHandler(event)` of src/scrollactive.vue: prevents default,
calls `scrollToTarget` with the clicked item's anchor id (a string, so the
type guard never fires), then emits `itemchanged(event, item)`. -/
def itemClickHandler (dom : Dom) (cfg : Config) (clickedIdx : Nat) (clicked : SAItem)
    (w : Win) : Except String (Win × Session × List Emit) :=
  match scrollToTarget dom cfg (.str (hashId clicked.hash)) w with
  | .error e => .error e
  | .ok (w', sess) => .ok (w', sess, [Emit.clicked clickedIdx])

/-- Component instance state relevant to registration: the registered item
list (`null` until `setScrollactiveItems` first succeeds) and the set of
anchor hashes whose elements currently have the click handler attached
(`addEventListener` with the same element and handler is idempotent). -/
structure CompState where
  scrollactiveItems : Option (List SAItem)
  boundClick : List String
deriving DecidableEq

/-- The message of the error thrown for an unresolvable anchor (quotes
around the hash omitted). -/
def validationError (hash : String) : String :=
  "Element " ++ hash ++ " was not found. Make sure it is set in the DOM."

/-- The first discovered item whose anchor does not resolve, if any: the
validation `forEach` throws at exactly this item. -/
def firstUnresolved (dom : Dom) : List SAItem → Option SAItem
  | [] => none
  | it :: rest =>
    if (dom (hashId it.hash)).isNone then some it else firstUnresolved dom rest

/-- Attach the click handler to every discovered item
(`addEventListener`: idempotent per element). -/
def attachClickAll (discovered : List SAItem) (bound : List String) : List String :=
  discovered.foldl (fun b it => if it.hash ∈ b then b else b ++ [it.hash]) bound

/-- Detach the click handler from every discovered item
(`removeEventListener`). -/
def detachClickAll (discovered : List SAItem) (bound : List String) : List String :=
  bound.filter fun h => decide (h ∉ discovered.map SAItem.hash)

/-- `setScrollactiveItems()`: validates that every discovered item's hash
resolves (throwing at the first that does not, before any mutation), then
stores the list and attaches or detaches click handlers per
`clickToScroll`.  Returns the instance state after the call together with
the thrown error, if any; since the validation loop mutates nothing, the
state on the error path is exactly the input state. -/
def setScrollactiveItems (dom : Dom) (cfg : Config) (discovered : List SAItem)
    (st : CompState) : CompState × Option String :=
  match firstUnresolved dom discovered with
  | some it => (st, some (validationError it.hash))
  | none =>
    let st1 : CompState := { st with scrollactiveItems := some discovered }
    if cfg.clickToScroll then
      ({ st1 with boundClick := attachClickAll discovered st1.boundClick }, none)
    else
      ({ st1 with boundClick := detachClickAll discovered st1.boundClick }, none)

/-- `beforeDestroy()`: removes the window scroll listener and cancels the
frame recorded in `window.AFRequestID`; the instance registration state is
untouched. -/
def beforeDestroy (st : CompState) (w : Win) : CompState × Win :=
  (st, cancelFrame w.afRequestID { w with scrollListenerAttached := false })

/-- Dispatching a click on a navigation item: the handler runs only if the
item's element currently has the click handler attached. -/
def clickOnItem (dom : Dom) (cfg : Config) (st : CompState)
    (clickedIdx : Nat) (clicked : SAItem) (w : Win) :
    Option (Except String (Win × Session × List Emit)) :=
  if clicked.hash ∈ st.boundClick then
    some (itemClickHandler dom cfg clickedIdx clicked w)
  else none

/-! Concrete fixtures used by witnesses and counterexamples: a document
with two sections of height 800 at offsets 0 and 800. -/

def elemSec1 : Elem := .mk 0 800 none

def elemSec2 : Elem := .mk 800 800 none

def domEx : Dom := fun s =>
  if s = "sec1" then some elemSec1 else if s = "sec2" then some elemSec2 else none

def itemSec1 : SAItem := { hash := "#sec1", active := false }

def itemSec2 : SAItem := { hash := "#sec2", active := false }

def itemBad : SAItem := { hash := "#nope", active := false }

def cfgTrack : Config :=
  { offset := 20, duration := 600, alwaysTrack := true, clickToScroll := true }

def cfgPause : Config :=
  { offset := 20, duration := 600, alwaysTrack := false, clickToScroll := true }

def winStart : Win :=
  { scrollListenerAttached := true, scheduled := [], nextFrameId := 0,
    afRequestID := none, scrollY := 0, pendingAttachTimeouts := 0 }

/-- A concrete monotone easing with value 1 at 1, standing in for the
out-of-scope bezier-easing collaborator in concrete runs. -/
def linEasing : Rat → Rat := fun t => t

/-- Projection helper: the window of a successful `scrollToTarget`. -/
def okWin (r : Except String (Win × Session)) (dflt : Win) : Win :=
  match r with
  | .ok p => p.1
  | .error _ => dflt

/-- Projection helper: whether a `scrollToTarget` call succeeded. -/
def isOkWS : Except String (Win × Session) → Bool
  | .ok _ => true
  | .error _ => false

/-- A session as `scrollToTarget domEx _ (.str "sec2")` captures it from
scroll position 0 (target offset 800), after a first frame at timestamp 1. -/
def sessEx : Session :=
  { startingY := 0, targetDistanceFromTop := 800, difference := 800, start := some 1 }

/-- The same session before its first frame (`start = null`). -/
def sessFresh : Session :=
  { startingY := 0, targetDistanceFromTop := 800, difference := 800, start := none }

/-- Window state with the scroll listener detached (mid-animation). -/
def winDetached : Win :=
  { scrollListenerAttached := false, scheduled := [0], nextFrameId := 1,
    afRequestID := none, scrollY := 0, pendingAttachTimeouts := 0 }

/-- Component state with both fixture items registered and click-bound. -/
def stBound : CompState :=
  { scrollactiveItems := some [itemSec1, itemSec2], boundClick := ["#sec1", "#sec2"] }

/-- Fresh component state (`scrollactiveItems = null`, nothing bound). -/
def stFresh : CompState := { scrollactiveItems := none, boundClick := [] }

/-- Projection helper: the emit list of a click-handler result. -/
def emitsOfClick : Except String (Win × Session × List Emit) → List Emit
  | .ok r => r.2.2
  | .error _ => []

/-- Projection helper: the captured target offset of a successful
`scrollToTarget`. -/
def okSessTarget (r : Except String (Win × Session)) (dflt : Rat) : Rat :=
  match r with
  | .ok p => p.2.targetDistanceFromTop
  | .error _ => dflt

/-- Window state in which a previous animation session has run at least one
`step` frame: its handle 5 is outstanding and recorded in
`window.AFRequestID`. -/
def winRecorded : Win :=
  { scrollListenerAttached := false, scheduled := [5], nextFrameId := 6,
    afRequestID := some 5, scrollY := 120, pendingAttachTimeouts := 0 }

/-! Evaluation lemmas for the fixtures, used by concrete proofs. -/

theorem hashId_sec1 : hashId "#sec1" = "sec1" := rfl

theorem hashId_sec2 : hashId "#sec2" = "sec2" := rfl

theorem hashId_nope : hashId "#nope" = "nope" := rfl

theorem domEx_sec1 : domEx "sec1" = some elemSec1 := by simp [domEx]

theorem domEx_sec2 : domEx "sec2" = some elemSec2 := by simp [domEx]

theorem domEx_nope : domEx "nope" = none := by simp [domEx]

theorem domEx_missing : domEx "missing" = none := by simp [domEx]

/-! Structural lemmas about the flag operations and the two scans. -/

theorem clearAll_cons (it : SAItem) (rest : List SAItem) :
    clearAll (it :: rest) = { it with active := false } :: clearAll rest := rfl

theorem length_clearAll (items : List SAItem) : (clearAll items).length = items.length := by
  simp [clearAll]

theorem activeAt_clearAll (items : List SAItem) (j : Nat) :
    activeAt (clearAll items) j = false := by
  induction items generalizing j with
  | nil => simp [clearAll, activeAt]
  | cons it rest ih =>
    cases j with
    | zero => simp [clearAll, activeAt]
    | succ n => simpa [clearAll, activeAt] using ih n

theorem activeAt_setActiveAt_self (items : List SAItem) (k : Nat) (h : k < items.length) :
    activeAt (setActiveAt items k) k = true := by
  induction items generalizing k with
  | nil => simp at h
  | cons it rest ih =>
    cases k with
    | zero => simp [setActiveAt, activeAt]
    | succ n => exact ih n (by simpa using h)

theorem activeAt_setActiveAt_ne (items : List SAItem) (k j : Nat) (h : j ≠ k) :
    activeAt (setActiveAt items k) j = activeAt items j := by
  induction items generalizing k j with
  | nil => simp [setActiveAt]
  | cons it rest ih =>
    cases k with
    | zero =>
      cases j with
      | zero => exact absurd rfl h
      | succ m => simp [setActiveAt, activeAt]
    | succ n =>
      cases j with
      | zero => simp [setActiveAt, activeAt]
      | succ m =>
        simpa [setActiveAt, activeAt] using ih n m (fun hh => h (by rw [hh]))

theorem countActive_cons (it : SAItem) (rest : List SAItem) :
    countActive (it :: rest) = (if it.active then 1 else 0) + countActive rest := by
  by_cases h : it.active <;> simp [countActive, List.filter, h, Nat.add_comm]

theorem countActive_clearAll (items : List SAItem) : countActive (clearAll items) = 0 := by
  induction items with
  | nil => rfl
  | cons it rest ih => simp [clearAll_cons, countActive_cons, ih]

theorem countActive_setActiveAt (items : List SAItem) (k : Nat) :
    countActive (setActiveAt items k) ≤ countActive items + 1 := by
  induction items generalizing k with
  | nil => simp [setActiveAt]
  | cons it rest ih =>
    cases k with
    | zero =>
      simp only [setActiveAt, countActive_cons]
      by_cases h : it.active <;> simp [h] <;> omega
    | succ n =>
      simp only [setActiveAt, countActive_cons]
      have := ih n
      omega

theorem lastQualifying_lt_length (p : SAItem → Prop) [DecidablePred p]
    (items : List SAItem) (j : Nat) (h : lastQualifying p items = some j) :
    j < items.length := by
  induction items generalizing j with
  | nil => simp [lastQualifying] at h
  | cons it rest ih =>
    rw [lastQualifying] at h
    cases hr : lastQualifying p rest with
    | some m =>
      rw [hr] at h
      simp only [Option.some.injEq] at h
      have := ih m hr
      simp only [List.length_cons]
      omega
    | none =>
      rw [hr] at h
      by_cases hq : p it
      · simp [hq] at h
        simp [← h]
      · simp [hq] at h

/-- The unbounded scan loop of the unnamed variant clears every item and
selects the last qualifying index, offset by the starting index. -/
theorem scanUnboundedGo_spec (dom : Dom) (off y : Rat) (items : List SAItem) :
    ∀ (i : Nat) (cur : Option Nat),
      scanUnboundedGo dom off y items i cur
        = (clearAll items,
           match lastQualifying (unboundedQualifies dom off y) items with
           | some j => some (i + j)
           | none => cur) := by
  induction items with
  | nil => intro i cur; rfl
  | cons it rest ih =>
    intro i cur
    rw [scanUnboundedGo]
    rw [ih (i + 1)]
    rw [clearAll_cons, lastQualifying]
    cases hr : lastQualifying (unboundedQualifies dom off y) rest with
    | some j =>
      have : i + 1 + j = i + (j + 1) := by omega
      simp [this]
    | none =>
      by_cases hq : unboundedQualifies dom off y it
      · have hq' : getOffsetTop (dom (hashId it.hash)) - off ≤ y := hq
        simp [hq, hq']
      · have hq' : ¬getOffsetTop (dom (hashId it.hash)) - off ≤ y := hq
        simp [hq, hq']

/-- The band scan loop of src/scrollactive.vue, when every item's anchor
resolves: clears every item and selects the last index whose band contains
the reference position, offset by the starting index. -/
theorem getCurrentItemGo_spec (dom : Dom) (off y : Rat) (items : List SAItem)
    (hres : ∀ it ∈ items, (dom (hashId it.hash)).isSome = true) :
    ∀ (i : Nat) (cur : Option Nat),
      getCurrentItemGo dom off y items i cur
        = (clearAll items,
           .ok (match lastQualifying (bandQualifies dom off y) items with
                | some j => some (i + j)
                | none => cur)) := by
  induction items with
  | nil => intro i cur; rfl
  | cons it rest ih =>
    intro i cur
    obtain ⟨target, htarget⟩ : ∃ t, dom (hashId it.hash) = some t := by
      have h := hres it (by simp)
      cases hd : dom (hashId it.hash) with
      | none => rw [hd] at h; simp at h
      | some t => exact ⟨t, rfl⟩
    have hband : bandQualifies dom off y it ↔
        (getOffsetTop (some target) - off ≤ y ∧
         y < getOffsetTop (some target) - off + target.clientHeight) := by
      rw [bandQualifies, htarget]
      simp [clientHeightOpt]
    rw [getCurrentItemGo, htarget]
    dsimp only
    rw [ih (fun it' hit' => hres it' (by simp [hit'])) (i + 1)]
    rw [clearAll_cons, lastQualifying]
    cases hr : lastQualifying (bandQualifies dom off y) rest with
    | some j =>
      have hij : i + 1 + j = i + (j + 1) := by omega
      simp [hij]
    | none =>
      by_cases hq : bandQualifies dom off y it
      · have hc := hband.mp hq
        rw [if_pos hc, if_pos hq]
        simp
      · have hc : ¬ (getOffsetTop (some target) - off ≤ y ∧
            y < getOffsetTop (some target) - off + target.clientHeight) :=
          fun hcc => hq (hband.mpr hcc)
        rw [if_neg hc, if_neg hq]

/-- `getCurrentItem` under full resolution: the mutated list is the cleared
one and the result is the last band-qualifying index. -/
theorem getCurrentItem_spec (dom : Dom) (off y : Rat) (items : List SAItem)
    (hres : ∀ it ∈ items, (dom (hashId it.hash)).isSome = true) :
    getCurrentItem dom off y items
      = (clearAll items, .ok (lastQualifying (bandQualifies dom off y) items)) := by
  rw [getCurrentItem, getCurrentItemGo_spec dom off y items hres 0 none]
  cases h : lastQualifying (bandQualifies dom off y) items with
  | some j => simp
  | none => simp

/-- The unbounded scan at the top level. -/
theorem scanUnbounded_spec (dom : Dom) (off y : Rat) (items : List SAItem) :
    scanUnboundedGo dom off y items 0 none
      = (clearAll items, lastQualifying (unboundedQualifies dom off y) items) := by
  rw [scanUnboundedGo_spec dom off y items 0 none]
  cases h : lastQualifying (unboundedQualifies dom off y) items with
  | some j => simp
  | none => simp

/-- `onScroll` of src/scrollactive.vue, characterized: the new
`lastActiveItem` is always the freshly computed current item, the emit
fires exactly when it differs from the previous one, and the flags are
cleared-then-set. -/
theorem onScroll_vue_spec (dom : Dom) (off y : Rat) (t : Tracker)
    (hres : ∀ it ∈ t.items, (dom (hashId it.hash)).isSome = true) :
    onScroll_vue dom off y t
      = ({ items := (match lastQualifying (bandQualifies dom off y) t.items with
             | some i => setActiveAt (clearAll t.items) i
             | none => clearAll t.items),
           lastActiveItem := lastQualifying (bandQualifies dom off y) t.items },
         (if lastQualifying (bandQualifies dom off y) t.items = t.lastActiveItem then []
          else [Emit.changed (lastQualifying (bandQualifies dom off y) t.items) t.lastActiveItem]),
         none) := by
  rw [onScroll_vue, getCurrentItem_spec dom off y t.items hres]
  by_cases hc : lastQualifying (bandQualifies dom off y) t.items = t.lastActiveItem
  · simp [hc]
  · simp [hc]

/-- `onScroll` of the unnamed variant, characterized likewise; the emit is
additionally suppressed while the previous `lastActiveItem` is null. -/
theorem onScroll_part0_spec (dom : Dom) (off y : Rat) (t : Tracker) :
    onScroll_part0 dom off y t
      = ({ items := (match lastQualifying (unboundedQualifies dom off y) t.items with
             | some i => setActiveAt (clearAll t.items) i
             | none => clearAll t.items),
           lastActiveItem := lastQualifying (unboundedQualifies dom off y) t.items },
         (if lastQualifying (unboundedQualifies dom off y) t.items = t.lastActiveItem then []
          else if t.lastActiveItem.isSome then
            [Emit.changed (lastQualifying (unboundedQualifies dom off y) t.items) t.lastActiveItem]
          else [])) := by
  rw [onScroll_part0, scanUnbounded_spec]
  by_cases hc : lastQualifying (unboundedQualifies dom off y) t.items = t.lastActiveItem
  · simp [hc]
  · simp [hc]

theorem firstUnresolved_none_iff (dom : Dom) (items : List SAItem) :
    firstUnresolved dom items = none
      ↔ ∀ it ∈ items, (dom (hashId it.hash)).isSome = true := by
  induction items with
  | nil => simp [firstUnresolved]
  | cons it rest ih =>
    rw [firstUnresolved]
    by_cases h : (dom (hashId it.hash)).isNone
    · simp only [if_pos h]
      constructor
      · intro hh; exact absurd hh (by simp)
      · intro hall
        have := hall it (by simp)
        rw [Option.isNone_iff_eq_none] at h
        rw [h] at this
        simp at this
    · simp only [if_neg h]
      rw [ih]
      constructor
      · intro hall it' hit'
        rcases List.mem_cons.mp hit' with heq | htl
        · subst heq
          simpa [Option.isNone_iff_eq_none, ← Option.ne_none_iff_isSome] using h
        · exact hall it' htl
      · intro hall it' hit'
        exact hall it' (List.mem_cons_of_mem _ hit')

theorem firstUnresolved_some (dom : Dom) (items : List SAItem) (it : SAItem)
    (h : firstUnresolved dom items = some it) :
    it ∈ items ∧ dom (hashId it.hash) = none := by
  induction items with
  | nil => simp [firstUnresolved] at h
  | cons hd rest ih =>
    rw [firstUnresolved] at h
    by_cases hh : (dom (hashId hd.hash)).isNone
    · rw [if_pos hh] at h
      obtain rfl : hd = it := by simpa using h
      exact ⟨by simp, Option.isNone_iff_eq_none.mp hh⟩
    · rw [if_neg hh] at h
      obtain ⟨hmem, hnone⟩ := ih h
      exact ⟨List.mem_cons_of_mem _ hmem, hnone⟩

theorem jsFalsyStart_some_ne (s : Rat) (hs : s ≠ 0) : jsFalsyStart (some s) = false := by
  simp [jsFalsyStart, hs]

/-- The position one `step` frame of src/scrollactive.vue writes, once the
start marker holds a nonzero timestamp `s`: the easing is sampled at the
clamped progress ratio. -/
theorem step_vue_scrollY (dom : Dom) (cfg : Config) (easing : Rat → Rat)
    (sess : Session) (items : List SAItem) (w : Win) (s t : Rat)
    (hdur : 0 < cfg.duration) (hs : sess.start = some s) (hs0 : s ≠ 0) :
    (step_vue dom cfg easing sess items t w).w.scrollY
      = sess.startingY
        + easing (if cfg.duration ≤ t - s then 1 else (t - s) / cfg.duration)
          * (sess.difference - cfg.offset) := by
  rw [step_vue, hs, jsFalsyStart_some_ne s hs0]
  simp only [Bool.false_eq_true, if_false, Option.getD_some]
  by_cases hge : cfg.duration ≤ t - s
  · have hge' : t - s ≥ cfg.duration := hge
    have hpp : (t - s) / cfg.duration ≥ 1 := (one_le_div hdur).mpr hge
    rw [if_pos hge', if_pos hpp, if_neg (lt_irrefl cfg.duration), if_pos hge]
    by_cases ha : cfg.alwaysTrack
    · simp [ha]
    · simp only [ha, Bool.false_eq_true, if_false]
      cases hX : getCurrentItem dom cfg.offset
          (sess.startingY + easing 1 * (sess.difference - cfg.offset)) items with
      | mk cleared r =>
        cases r with
        | error e => simp
        | ok cur => cases cur <;> simp
  · have hlt : t - s < cfg.duration := lt_of_not_le hge
    have hge' : ¬ t - s ≥ cfg.duration := hge
    have hpp : ¬ (t - s) / cfg.duration ≥ 1 := by
      rw [ge_iff_le, one_le_div hdur]
      exact hge
    rw [if_neg hge', if_neg hpp, if_pos hlt, if_neg hge]
    simp [requestFrame]

/-- A non-final `step` frame of src/scrollactive.vue: schedules the next
frame and records its handle, touches neither the listener state nor the
timeout queue nor the items, and runs no check. -/
theorem step_vue_continue_facts (dom : Dom) (cfg : Config) (easing : Rat → Rat)
    (sess : Session) (items : List SAItem) (w : Win) (s t : Rat)
    (hdur : 0 < cfg.duration) (hs : sess.start = some s) (hs0 : s ≠ 0)
    (hlt : t - s < cfg.duration) :
    (step_vue dom cfg easing sess items t w).finalCheckRan = false
    ∧ (step_vue dom cfg easing sess items t w).w.scrollListenerAttached
        = w.scrollListenerAttached
    ∧ (step_vue dom cfg easing sess items t w).w.pendingAttachTimeouts
        = w.pendingAttachTimeouts
    ∧ (step_vue dom cfg easing sess items t w).w.scheduled = w.scheduled ++ [w.nextFrameId]
    ∧ (step_vue dom cfg easing sess items t w).w.afRequestID = some w.nextFrameId
    ∧ (step_vue dom cfg easing sess items t w).items = items
    ∧ (step_vue dom cfg easing sess items t w).session = { sess with start := some s } := by
  rw [step_vue, hs, jsFalsyStart_some_ne s hs0]
  simp only [Bool.false_eq_true, if_false, Option.getD_some]
  have hge' : ¬ t - s ≥ cfg.duration := not_le.mpr hlt
  rw [if_neg hge', if_pos hlt]
  simp [requestFrame]

/-- A completion `step` frame of src/scrollactive.vue: schedules nothing
and leaves the listener alone; when `alwaysTrack` is false and every anchor
resolves, it re-runs `getCurrentItem` once at the just-written final
position, re-flags the current item, and queues one deferred re-attach. -/
theorem step_vue_complete_facts (dom : Dom) (cfg : Config) (easing : Rat → Rat)
    (sess : Session) (items : List SAItem) (w : Win) (s t : Rat)
    (hdur : 0 < cfg.duration) (hs : sess.start = some s) (hs0 : s ≠ 0)
    (hge : cfg.duration ≤ t - s) :
    (step_vue dom cfg easing sess items t w).w.scheduled = w.scheduled
    ∧ (step_vue dom cfg easing sess items t w).w.scrollListenerAttached
        = w.scrollListenerAttached
    ∧ (cfg.alwaysTrack = false →
        (∀ it ∈ items, (dom (hashId it.hash)).isSome = true) →
        (step_vue dom cfg easing sess items t w).finalCheckRan = true
        ∧ (step_vue dom cfg easing sess items t w).w.pendingAttachTimeouts
            = w.pendingAttachTimeouts + 1
        ∧ (step_vue dom cfg easing sess items t w).items
            = (match lastQualifying (bandQualifies dom cfg.offset
                  (sess.startingY + easing 1 * (sess.difference - cfg.offset))) items with
               | some k => setActiveAt (clearAll items) k
               | none => clearAll items)) := by
  rw [step_vue, hs, jsFalsyStart_some_ne s hs0]
  simp only [Bool.false_eq_true, if_false, Option.getD_some]
  have hge' : t - s ≥ cfg.duration := hge
  have hpp : (t - s) / cfg.duration ≥ 1 := (one_le_div hdur).mpr hge
  rw [if_pos hge', if_pos hpp, if_neg (lt_irrefl cfg.duration)]
  refine ⟨?_, ?_, ?_⟩
  · by_cases ha : cfg.alwaysTrack
    · simp [ha]
    · simp only [ha, Bool.false_eq_true, if_false]
      cases hX : getCurrentItem dom cfg.offset
          (sess.startingY + easing 1 * (sess.difference - cfg.offset)) items with
      | mk cleared r =>
        cases r with
        | error e => simp
        | ok cur => cases cur <;> simp
  · by_cases ha : cfg.alwaysTrack
    · simp [ha]
    · simp only [ha, Bool.false_eq_true, if_false]
      cases hX : getCurrentItem dom cfg.offset
          (sess.startingY + easing 1 * (sess.difference - cfg.offset)) items with
      | mk cleared r =>
        cases r with
        | error e => simp
        | ok cur => cases cur <;> simp
  · intro ha hres
    rw [ha]
    simp only [Bool.false_eq_true, if_false]
    rw [getCurrentItem_spec dom cfg.offset
      (sess.startingY + easing 1 * (sess.difference - cfg.offset)) items hres]
    cases hlq : lastQualifying (bandQualifies dom cfg.offset
        (sess.startingY + easing 1 * (sess.difference - cfg.offset))) items with
    | some k => simp
    | none => simp

/-- A completion `step` frame of the unnamed variant: re-attaches the
scroll listener immediately, inside the frame, with no deferral. -/
theorem step_part0_complete (cfg : Config) (easing : Rat → Rat)
    (sess : Session) (w : Win) (s t : Rat)
    (hdur : 0 < cfg.duration) (hs : sess.start = some s) (hs0 : s ≠ 0)
    (hge : cfg.duration ≤ t - s) :
    (step_part0 cfg easing sess t w).1.scrollListenerAttached = true
    ∧ (step_part0 cfg easing sess t w).1.pendingAttachTimeouts
        = w.pendingAttachTimeouts
    ∧ (step_part0 cfg easing sess t w).1.scheduled = w.scheduled := by
  rw [step_part0, hs, jsFalsyStart_some_ne s hs0]
  simp only [Bool.false_eq_true, if_false, Option.getD_some]
  have hge' : t - s ≥ cfg.duration := hge
  have hpp : (t - s) / cfg.duration ≥ 1 := (one_le_div hdur).mpr hge
  rw [if_pos hge', if_pos hpp, if_neg (lt_irrefl cfg.duration)]
  simp

theorem getOffsetTopElem_eq_sum :
    ∀ e : Elem, getOffsetTopElem e = ((offsetChain e).map Elem.offsetTop).sum
  | .mk t h none => by simp [getOffsetTopElem, offsetChain, Elem.offsetTop]
  | .mk t h (some p) => by
    have ih := getOffsetTopElem_eq_sum p
    simp [getOffsetTopElem, offsetChain, Elem.offsetTop, ih]

/-- Resolution of the two fixture items registered in `trackerEx`-style
lists: every anchor resolves in `domEx`. -/
theorem hresEx : ∀ it ∈ [itemSec1, itemSec2], ((domEx (hashId it.hash)).isSome = true) := by
  intro it hit
  simp only [List.mem_cons, List.mem_singleton, List.not_mem_nil, or_false] at hit
  rcases hit with rfl | rfl
  · simp [itemSec1, hashId_sec1, domEx_sec1]
  · simp [itemSec2, hashId_sec2, domEx_sec2]

theorem bandQ_sec1_at10 : bandQualifies domEx 20 10 itemSec1 := by
  constructor <;>
    norm_num [bandQualifies, itemSec1, hashId_sec1, domEx_sec1, getOffsetTop,
      getOffsetTopElem, elemSec1, clientHeightOpt, Elem.clientHeight]

theorem bandQ_sec2_at810 : bandQualifies domEx 20 810 itemSec2 := by
  constructor <;>
    norm_num [bandQualifies, itemSec2, hashId_sec2, domEx_sec2, getOffsetTop,
      getOffsetTopElem, elemSec2, clientHeightOpt, Elem.clientHeight]

theorem lastQ_band_810 :
    lastQualifying (bandQualifies domEx 20 810) [itemSec1, itemSec2] = some 1 := by
  have h2 : lastQualifying (bandQualifies domEx 20 810) [itemSec2] = some 0 := by
    rw [lastQualifying, lastQualifying]
    simp [bandQ_sec2_at810]
  rw [lastQualifying, h2]

/-! The claims. -/

/-- Claim C9: for every element, `getOffsetTop` equals the sum of
`offsetTop` over the offset-parent chain, and returns 0 for a null
element; it is a pure total function of the chain. -/
theorem C9_getOffsetTop_chain_sum :
    (∀ e : Elem, getOffsetTop (some e) = ((offsetChain e).map Elem.offsetTop).sum)
    ∧ getOffsetTop none = 0 := by
  constructor
  · intro e
    rw [getOffsetTop]
    exact getOffsetTopElem_eq_sum e
  · rfl

/-- Claim C3, settled against both variants: in src/scrollactive.vue the
first check made from `mounted` (with `lastActiveItem = null`) DOES emit an
`itemchanged` notification whenever an item qualifies (evaluated here at a
concrete initial position), contradicting the claim; in the unnamed variant
the `if (this.lastActiveItem)` guard makes the first check silent for every
position and item set, as the claim states. -/
theorem C3_initial_check :
    (onScroll_vue domEx 20 10 { items := [itemSec1], lastActiveItem := none }).2.1
      = [Emit.changed (some 0) none]
    ∧ ∀ (dom : Dom) (off y : Rat) (items : List SAItem),
        (onScroll_part0 dom off y { items := items, lastActiveItem := none }).2 = [] := by
  constructor
  · rw [onScroll_vue_spec domEx 20 10 { items := [itemSec1], lastActiveItem := none }
      (by intro it hit
          simp only [List.mem_singleton] at hit
          subst hit
          simp [itemSec1, hashId_sec1, domEx_sec1])]
    have hlq : lastQualifying (bandQualifies domEx 20 10) [itemSec1] = some 0 := by
      rw [lastQualifying, lastQualifying]
      simp [bandQ_sec1_at10]
    simp [hlq]
  · intro dom off y items
    rw [onScroll_part0_spec]
    simp

/-- Counterexample to claim C4 as stated: `itemClickHandler` is a second
emitting path; it emits `itemchanged(event, item)` on every click,
independently of any check or of `lastActiveItem`. -/
theorem C4_click_always_emits :
    emitsOfClick (itemClickHandler domEx cfgPause 0 { hash := "#sec1", active := true } winStart)
      = [Emit.clicked 0] := by
  simp [itemClickHandler, scrollToTarget, emitsOfClick, cfgPause]

/-- Claim C4 as amended: `onScroll` of src/scrollactive.vue emits exactly
one `itemchanged(event, newItem, oldItem)` notification when the computed
current item differs from `lastActiveItem` and none otherwise — including
on the initial check — and `itemClickHandler` additionally emits one
two-argument `itemchanged` notification on every click. -/
theorem C4_emit_amended (dom : Dom) (off y : Rat) (t : Tracker) (cur : Option Nat)
    (h : (getCurrentItem dom off y t.items).2 = Except.ok cur) :
    ((onScroll_vue dom off y t).2.1
        = if cur = t.lastActiveItem then [] else [Emit.changed cur t.lastActiveItem])
    ∧ ∀ (cfg : Config) (i : Nat) (it : SAItem) (w : Win),
        ∃ w' sess, itemClickHandler dom cfg i it w = .ok (w', sess, [Emit.clicked i]) := by
  constructor
  · rw [onScroll_vue]
    cases hg : getCurrentItem dom off y t.items with
    | mk cleared r =>
      rw [hg] at h
      simp only at h
      subst h
      by_cases hc : cur = t.lastActiveItem
      · simp [hc]
      · simp [hc]
  · intro cfg i it w
    rw [itemClickHandler, scrollToTarget]
    exact ⟨_, _, rfl⟩

/-- Witness for C4: at scroll position 810 with `lastActiveItem = 0`, the
check computes item 1 and exactly one notification is emitted. -/
theorem C4_witness :
    (onScroll_vue domEx 20 810 { items := [itemSec1, itemSec2], lastActiveItem := some 0 }).2.1
      = [Emit.changed (some 1) (some 0)] := by
  have h := (C4_emit_amended domEx 20 810
      { items := [itemSec1, itemSec2], lastActiveItem := some 0 } (some 1)
      (by rw [getCurrentItem_spec domEx 20 810 [itemSec1, itemSec2] hresEx, lastQ_band_810])).1
  simpa using h

/-- Claim C6: `setScrollactiveItems` fails exactly when some discovered
item's anchor does not resolve; the error is raised during the validation
pass (before any registration), names the missing anchor, and leaves the
previously registered list and click bindings untouched; on success the
discovered list is registered. -/
theorem C6_registration (dom : Dom) (cfg : Config) (discovered : List SAItem) (st : CompState) :
    ((setScrollactiveItems dom cfg discovered st).2 = none
        ↔ ∀ it ∈ discovered, (dom (hashId it.hash)).isSome = true)
    ∧ (∀ it, firstUnresolved dom discovered = some it →
        setScrollactiveItems dom cfg discovered st = (st, some (validationError it.hash))
        ∧ it ∈ discovered ∧ dom (hashId it.hash) = none)
    ∧ (firstUnresolved dom discovered = none →
        (setScrollactiveItems dom cfg discovered st).1.scrollactiveItems = some discovered) := by
  refine ⟨?_, ?_, ?_⟩
  · rw [setScrollactiveItems]
    cases hf : firstUnresolved dom discovered with
    | some it =>
      constructor
      · intro hh
        simp at hh
      · intro hall
        obtain ⟨hmem, hnone⟩ := firstUnresolved_some dom discovered it hf
        have := hall it hmem
        rw [hnone] at this
        simp at this
    | none =>
      have hall := (firstUnresolved_none_iff dom discovered).mp hf
      by_cases hcl : cfg.clickToScroll <;> simp [hcl] <;> exact hall
  · intro it hf
    rw [setScrollactiveItems, hf]
    exact ⟨rfl, firstUnresolved_some dom discovered it hf⟩
  · intro hf
    rw [setScrollactiveItems, hf]
    by_cases hcl : cfg.clickToScroll <;> simp [hcl]

/-- Witness for C6: a discovery containing an unresolvable anchor `#nope`
aborts with the error naming it and the state exactly as before. -/
theorem C6_witness :
    setScrollactiveItems domEx cfgPause [itemSec1, itemBad] stFresh
      = (stFresh, some (validationError "#nope")) := by
  have hf : firstUnresolved domEx [itemSec1, itemBad] = some itemBad := by
    rw [firstUnresolved, firstUnresolved]
    simp [itemSec1, itemBad, hashId_sec1, hashId_nope, domEx_sec1, domEx_nope]
  exact ((C6_registration domEx cfgPause [itemSec1, itemBad] stFresh).2.1 itemBad hf).1

/-- Counterexample to claim C7 as stated: `scrollToTarget` with a string id
that resolves to no element does NOT fail — the call succeeds, captures a
target offset of 0 (`getOffsetTop(null)`), and schedules the first
animation frame. -/
theorem C7_unresolvable_no_error :
    isOkWS (scrollToTarget domEx cfgPause (.str "missing") winStart) = true
    ∧ okSessTarget (scrollToTarget domEx cfgPause (.str "missing") winStart) 999 = 0
    ∧ (okWin (scrollToTarget domEx cfgPause (.str "missing") winStart) winStart).scheduled = [0] := by
  refine ⟨?_, ?_, ?_⟩ <;>
    simp [scrollToTarget, isOkWS, okSessTarget, okWin, cfgPause, winStart, domEx_missing,
      getOffsetTop, requestFrame, cancelFrame]

/-- Claim C7 as amended: `scrollToTarget` throws exactly on a non-string
argument (before touching any state); every string argument — resolvable or
not — succeeds, captures `getOffsetTop` of whatever the id resolves to (0
for an unresolvable id), and schedules an animation frame. -/
theorem C7_validation_amended (dom : Dom) (cfg : Config) (w : Win) :
    (scrollToTarget dom cfg JSVal.nonString w
        = .error ("scrollToTarget method requires a DOM Id as parameter."))
    ∧ ∀ s : String, ∃ w' sess,
        scrollToTarget dom cfg (.str s) w = .ok (w', sess)
        ∧ sess.targetDistanceFromTop = getOffsetTop (dom s)
        ∧ w'.scheduled ≠ [] := by
  constructor
  · rfl
  · intro s
    rw [scrollToTarget]
    refine ⟨_, _, rfl, rfl, ?_⟩
    simp [requestFrame]

/-- Claim C10: teardown removes only the scroll listener and the recorded
pending frame; click bindings survive, and a click on a still-bound item
after teardown runs the click handler, emits, and schedules a new
animation frame toward the item's target. -/
theorem C10_teardown_click (st : CompState) (w : Win) :
    (beforeDestroy st w).1 = st
    ∧ (beforeDestroy st w).2.scrollListenerAttached = false
    ∧ (beforeDestroy st w).2.scheduled = (cancelFrame w.afRequestID w).scheduled
    ∧ ∀ (dom : Dom) (cfg : Config) (i : Nat) (it : SAItem),
        it.hash ∈ st.boundClick →
        ∃ w' sess,
          clickOnItem dom cfg (beforeDestroy st w).1 i it (beforeDestroy st w).2
              = some (.ok (w', sess, [Emit.clicked i]))
          ∧ sess.targetDistanceFromTop = getOffsetTop (dom (hashId it.hash))
          ∧ w'.scheduled ≠ [] := by
  refine ⟨rfl, ?_, ?_, ?_⟩
  · cases h : w.afRequestID <;> simp [beforeDestroy, cancelFrame, h]
  · cases h : w.afRequestID <;> simp [beforeDestroy, cancelFrame, h]
  · intro dom cfg i it hmem
    rw [clickOnItem]
    rw [if_pos (by simpa [beforeDestroy] using hmem)]
    rw [itemClickHandler, scrollToTarget]
    refine ⟨_, _, rfl, rfl, ?_⟩
    simp [requestFrame]

/-- Witness for C10: after teardown with a recorded pending frame, clicking
the still-bound second item starts a new animation toward its section. -/
theorem C10_witness :
    ∃ w' sess,
      clickOnItem domEx cfgPause (beforeDestroy stBound winRecorded).1 1 itemSec2
          (beforeDestroy stBound winRecorded).2
        = some (.ok (w', sess, [Emit.clicked 1]))
      ∧ sess.targetDistanceFromTop = getOffsetTop (domEx (hashId itemSec2.hash))
      ∧ w'.scheduled ≠ [] := by
  exact (C10_teardown_click stBound winRecorded).2.2.2 domEx cfgPause 1 itemSec2
    (by simp [stBound, itemSec2])

/-- Counterexample to claim C1 as stated: two back-to-back `scrollToTarget`
calls leave TWO outstanding frame callbacks — with `alwaysTrack = true`
because the cancellation is skipped entirely, and even with
`alwaysTrack = false` because the first call's frame handle was never
recorded in `window.AFRequestID` (the return value of the initial
`requestAnimationFrame` is discarded), so the cancel is a no-op. -/
theorem C1_two_outstanding_frames :
    ((okWin (scrollToTarget domEx cfgTrack (.str "sec1")
        (okWin (scrollToTarget domEx cfgTrack (.str "sec1") winStart) winStart)) winStart).scheduled
      = [0, 1])
    ∧ ((okWin (scrollToTarget domEx cfgPause (.str "sec1")
        (okWin (scrollToTarget domEx cfgPause (.str "sec1") winStart) winStart)) winStart).scheduled
      = [0, 1]) := by
  constructor <;>
    simp [scrollToTarget, okWin, cfgTrack, cfgPause, winStart, requestFrame, cancelFrame]

/-- Claim C1 as amended: cancellation happens only when
`alwaysTrack = false`, and cancels exactly the frame whose handle is
recorded in `window.AFRequestID` — a handle only `step` frames record, never
the initial scheduling, whose `requestAnimationFrame` return value is
discarded.  When the sole outstanding frame is the recorded one, at most
one callback is outstanding after `scrollToTarget`; with
`alwaysTrack = true` nothing is cancelled and outstanding callbacks
accumulate. -/
theorem C1_cancellation_amended (dom : Dom) (cfg : Config) (w : Win) (h : Nat) (s : String) :
    (cfg.alwaysTrack = false → w.scheduled = [h] → w.afRequestID = some h →
      ∃ w' sess, scrollToTarget dom cfg (.str s) w = .ok (w', sess)
        ∧ w'.scheduled = [w.nextFrameId]
        ∧ w'.afRequestID = w.afRequestID)
    ∧ (cfg.alwaysTrack = true →
      ∃ w' sess, scrollToTarget dom cfg (.str s) w = .ok (w', sess)
        ∧ w'.scheduled = w.scheduled ++ [w.nextFrameId]
        ∧ w'.afRequestID = w.afRequestID) := by
  constructor
  · intro ha hsched hrec
    rw [scrollToTarget]
    refine ⟨_, _, rfl, ?_, ?_⟩
    · simp [ha, hrec, cancelFrame, requestFrame, hsched]
    · simp [ha, hrec, cancelFrame, requestFrame]
  · intro ha
    rw [scrollToTarget]
    refine ⟨_, _, rfl, ?_, ?_⟩
    · simp [ha, requestFrame]
    · simp [ha, requestFrame]

/-- Witness for C1: with the previous session's only frame (handle 5)
recorded in `window.AFRequestID`, a new `scrollToTarget` with
`alwaysTrack = false` leaves exactly the one new frame outstanding. -/
theorem C1_witness :
    ∃ w' sess, scrollToTarget domEx cfgPause (.str "sec1") winRecorded = .ok (w', sess)
      ∧ w'.scheduled = [6] ∧ w'.afRequestID = some 5 := by
  obtain ⟨w', sess, heq, hsched, haf⟩ :=
    (C1_cancellation_amended domEx cfgPause winRecorded 5 "sec1").1 rfl rfl rfl
  exact ⟨w', sess, heq, hsched, haf⟩

/-- Claim C8: after a completed check, at most one registered item carries
the active class: under src/scrollactive.vue's bounded band policy the
flagged item is exactly the last item in source order whose band contains
the reference position (none when no band contains it, in which case the
list is exactly the cleared one); under the unnamed variant's unbounded
policy it is exactly the last item whose threshold is at or below the
reference position. -/
theorem C8_active_flag_exclusive (dom : Dom) (off y : Rat) (t : Tracker)
    (hres : ∀ it ∈ t.items, (dom (hashId it.hash)).isSome = true) :
    countActive (onScroll_vue dom off y t).1.items ≤ 1
    ∧ (∀ j, activeAt (onScroll_vue dom off y t).1.items j = true
        ↔ lastQualifying (bandQualifies dom off y) t.items = some j)
    ∧ (∀ j, activeAt (onScroll_part0 dom off y t).1.items j = true
        ↔ lastQualifying (unboundedQualifies dom off y) t.items = some j)
    ∧ (lastQualifying (bandQualifies dom off y) t.items = none →
        (onScroll_vue dom off y t).1.items = clearAll t.items) := by
  rw [onScroll_vue_spec dom off y t hres, onScroll_part0_spec dom off y t]
  refine ⟨?_, ?_, ?_, ?_⟩
  · cases hlq : lastQualifying (bandQualifies dom off y) t.items with
    | none => simp [countActive_clearAll]
    | some k =>
      simp only
      calc countActive (setActiveAt (clearAll t.items) k)
          ≤ countActive (clearAll t.items) + 1 := countActive_setActiveAt _ k
        _ = 1 := by rw [countActive_clearAll]
  · intro j
    cases hlq : lastQualifying (bandQualifies dom off y) t.items with
    | none => simp [activeAt_clearAll]
    | some k =>
      simp only
      by_cases hj : j = k
      · subst hj
        have hk : j < t.items.length := lastQualifying_lt_length _ t.items j hlq
        rw [activeAt_setActiveAt_self _ j (by rwa [length_clearAll])]
        simp
      · rw [activeAt_setActiveAt_ne _ k j hj, activeAt_clearAll]
        simp [Ne.symm hj, hj]
  · intro j
    cases hlq : lastQualifying (unboundedQualifies dom off y) t.items with
    | none => simp [activeAt_clearAll]
    | some k =>
      simp only
      by_cases hj : j = k
      · subst hj
        have hk : j < t.items.length := lastQualifying_lt_length _ t.items j hlq
        rw [activeAt_setActiveAt_self _ j (by rwa [length_clearAll])]
        simp
      · rw [activeAt_setActiveAt_ne _ k j hj, activeAt_clearAll]
        simp [Ne.symm hj, hj]
  · intro hlq
    rw [hlq]

/-- Witness for C8: at reference position 810 the second item's band
[780, 1580) is the last qualifying one; it alone is flagged. -/
theorem C8_witness :
    activeAt (onScroll_vue domEx 20 810
        { items := [itemSec1, itemSec2], lastActiveItem := none }).1.items 1 = true
    ∧ countActive (onScroll_vue domEx 20 810
        { items := [itemSec1, itemSec2], lastActiveItem := none }).1.items ≤ 1 := by
  have h := C8_active_flag_exclusive domEx 20 810
    { items := [itemSec1, itemSec2], lastActiveItem := none } hresEx
  exact ⟨(h.2.1 1).mpr lastQ_band_810, h.1⟩

/-- Counterexample to claim C2 as stated: in the unnamed variant
(`scrollToTargetElement`/its `step`), the completion frame re-attaches the
scroll listener immediately within the frame — no deferral is queued and no
check is re-run. -/
theorem C2_part0_immediate_reattach :
    (step_part0 cfgPause linEasing sessEx 601 winDetached).1.scrollListenerAttached = true
    ∧ (step_part0 cfgPause linEasing sessEx 601 winDetached).1.pendingAttachTimeouts = 0 := by
  norm_num [step_part0, jsFalsyStart, cfgPause, sessEx, winDetached, linEasing]

/-- Claim C2 as amended, for src/scrollactive.vue's `scrollToTarget` with
`alwaysTrack = false`: the scroll listener is detached synchronously before
the first frame is scheduled; non-final frames leave the listener and the
timeout queue untouched and run no check; the completion frame re-runs
`getCurrentItem` once at the final position (re-flagging the current item,
without touching `lastActiveItem` or emitting), leaves the listener
detached, and queues exactly one deferred re-attach, which attaches the
listener when it later fires.  In the unnamed variant the completion frame
instead re-attaches the listener immediately, with no check and no
deferral. -/
theorem C2_pause_resume_amended (dom : Dom) (cfg : Config) (easing : Rat → Rat)
    (sess : Session) (items : List SAItem) (w : Win) (s t : Rat)
    (hdur : 0 < cfg.duration) (hs : sess.start = some s) (hs0 : s ≠ 0) :
    (cfg.alwaysTrack = false → ∀ name : String, ∃ w' sess',
        scrollToTarget dom cfg (.str name) w = .ok (w', sess')
        ∧ w'.scrollListenerAttached = false
        ∧ w'.pendingAttachTimeouts = w.pendingAttachTimeouts)
    ∧ (t - s < cfg.duration →
        (step_vue dom cfg easing sess items t w).finalCheckRan = false
        ∧ (step_vue dom cfg easing sess items t w).w.scrollListenerAttached
            = w.scrollListenerAttached
        ∧ (step_vue dom cfg easing sess items t w).w.pendingAttachTimeouts
            = w.pendingAttachTimeouts)
    ∧ (cfg.alwaysTrack = false → cfg.duration ≤ t - s →
        (∀ it ∈ items, (dom (hashId it.hash)).isSome = true) →
        (step_vue dom cfg easing sess items t w).finalCheckRan = true
        ∧ (step_vue dom cfg easing sess items t w).w.scrollListenerAttached
            = w.scrollListenerAttached
        ∧ (step_vue dom cfg easing sess items t w).w.pendingAttachTimeouts
            = w.pendingAttachTimeouts + 1
        ∧ (step_vue dom cfg easing sess items t w).items
            = (match lastQualifying (bandQualifies dom cfg.offset
                  (sess.startingY + easing 1 * (sess.difference - cfg.offset))) items with
               | some k => setActiveAt (clearAll items) k
               | none => clearAll items))
    ∧ (0 < w.pendingAttachTimeouts → (runAttachTimeout w).scrollListenerAttached = true)
    ∧ (cfg.duration ≤ t - s →
        (step_part0 cfg easing sess t w).1.scrollListenerAttached = true) := by
  refine ⟨?_, ?_, ?_, ?_, ?_⟩
  · intro ha name
    rw [scrollToTarget, ha]
    refine ⟨_, _, rfl, ?_, ?_⟩
    · cases h : w.afRequestID <;> simp [cancelFrame, requestFrame, h]
    · cases h : w.afRequestID <;> simp [cancelFrame, requestFrame, h]
  · intro hlt
    obtain ⟨h1, h2, h3, _⟩ :=
      step_vue_continue_facts dom cfg easing sess items w s t hdur hs hs0 hlt
    exact ⟨h1, h2, h3⟩
  · intro ha hge hres
    obtain ⟨_, h2, h3⟩ :=
      step_vue_complete_facts dom cfg easing sess items w s t hdur hs hs0 hge
    obtain ⟨h4, h5, h6⟩ := h3 ha hres
    exact ⟨h4, h2, h5, h6⟩
  · intro hp
    rw [runAttachTimeout, if_pos hp]
  · intro hge
    exact (step_part0_complete cfg easing sess w s t hdur hs hs0 hge).1

/-- Witness for C2: a concrete completion frame at timestamp 601 (start
marker 1, duration 600) runs the final check, leaves the listener detached
and queues one deferred re-attach. -/
theorem C2_witness :
    (step_vue domEx cfgPause linEasing sessEx [] 601 winDetached).finalCheckRan = true
    ∧ (step_vue domEx cfgPause linEasing sessEx [] 601 winDetached).w.scrollListenerAttached
        = false
    ∧ (step_vue domEx cfgPause linEasing sessEx [] 601 winDetached).w.pendingAttachTimeouts
        = 1 := by
  have h := C2_pause_resume_amended domEx cfgPause linEasing sessEx [] winDetached 1 601
    (by norm_num [cfgPause]) rfl (by norm_num)
  obtain ⟨h4, h2, h5, _⟩ := h.2.2.1 rfl (by norm_num [cfgPause, sessEx]) (by simp)
  exact ⟨h4, h2, h5⟩

/-- Counterexample to claim C5 as stated: when the first frame runs at
timestamp exactly 0, the JS-falsy start marker is re-initialized on the
next frame, so at the frame whose elapsed time since the animation's first
frame equals the duration the written position is still the easing-0 value
(here 0, not `targetDistanceFromTop - offset = 780`), and a further frame
IS scheduled after it. -/
theorem C5_zero_start_misses :
    (runStepsVue domEx cfgPause linEasing [0, 600] sessFresh [] winStart).2.2.2 = [0, 0]
    ∧ ((runStepsVue domEx cfgPause linEasing [0, 600] sessFresh [] winStart).2.2.1).scheduled
        = [0, 1] := by
  constructor <;>
    norm_num [runStepsVue, step_vue, jsFalsyStart, cfgPause, sessFresh, winStart, linEasing,
      requestFrame]

/-- Claim C5 as amended: once the session's start marker holds a nonzero
timestamp `s` (as happens after a first frame at any positive timestamp),
every frame with `t - s ≥ duration` writes exactly
`startingY + easing(1) * (difference - offset) = targetDistanceFromTop -
offset` and schedules no further frame; and for a monotone easing with
`easing(1) = 1`, positions written at increasing timestamps converge
monotonically toward that final value. -/
theorem C5_convergence (dom : Dom) (cfg : Config) (easing : Rat → Rat)
    (sess : Session) (items : List SAItem) (w : Win) (s : Rat)
    (hdur : 0 < cfg.duration) (hmono : Monotone easing) (he1 : easing 1 = 1)
    (hs : sess.start = some s) (hs0 : s ≠ 0)
    (hdiff : sess.difference = sess.targetDistanceFromTop - sess.startingY) :
    (∀ t, cfg.duration ≤ t - s →
        (step_vue dom cfg easing sess items t w).w.scrollY
            = sess.targetDistanceFromTop - cfg.offset
        ∧ (step_vue dom cfg easing sess items t w).w.scheduled = w.scheduled)
    ∧ (∀ t1 t2, t1 ≤ t2 →
        |sess.targetDistanceFromTop - cfg.offset
            - (step_vue dom cfg easing sess items t2 w).w.scrollY|
          ≤ |sess.targetDistanceFromTop - cfg.offset
            - (step_vue dom cfg easing sess items t1 w).w.scrollY|) := by
  constructor
  · intro t hge
    constructor
    · rw [step_vue_scrollY dom cfg easing sess items w s t hdur hs hs0, if_pos hge, he1,
        hdiff]
      ring
    · exact (step_vue_complete_facts dom cfg easing sess items w s t hdur hs hs0 hge).1
  · intro t1 t2 h12
    rw [step_vue_scrollY dom cfg easing sess items w s t1 hdur hs hs0,
      step_vue_scrollY dom cfg easing sess items w s t2 hdur hs hs0]
    set q1 : Rat := if cfg.duration ≤ t1 - s then 1 else (t1 - s) / cfg.duration with hq1
    set q2 : Rat := if cfg.duration ≤ t2 - s then 1 else (t2 - s) / cfg.duration with hq2
    have hq1le : q1 ≤ 1 := by
      rw [hq1]
      by_cases hc : cfg.duration ≤ t1 - s
      · rw [if_pos hc]
      · rw [if_neg hc]
        exact le_of_lt ((div_lt_one hdur).mpr (lt_of_not_le hc))
    have hq2le : q2 ≤ 1 := by
      rw [hq2]
      by_cases hc : cfg.duration ≤ t2 - s
      · rw [if_pos hc]
      · rw [if_neg hc]
        exact le_of_lt ((div_lt_one hdur).mpr (lt_of_not_le hc))
    have hq12 : q1 ≤ q2 := by
      rw [hq1, hq2]
      by_cases hc1 : cfg.duration ≤ t1 - s
      · rw [if_pos hc1, if_pos (le_trans hc1 (by linarith))]
      · by_cases hc2 : cfg.duration ≤ t2 - s
        · rw [if_neg hc1, if_pos hc2]
          exact le_of_lt ((div_lt_one hdur).mpr (lt_of_not_le hc1))
        · rw [if_neg hc1, if_neg hc2]
          have : t1 - s ≤ t2 - s := by linarith
          exact div_le_div_of_nonneg_right this hdur.le
    have he1le : easing q1 ≤ 1 := he1 ▸ hmono hq1le
    have he2le : easing q2 ≤ 1 := he1 ▸ hmono hq2le
    have he12 : easing q1 ≤ easing q2 := hmono hq12
    rw [hdiff]
    have hrw : ∀ eq : Rat,
        sess.targetDistanceFromTop - cfg.offset
          - (sess.startingY + eq * (sess.targetDistanceFromTop - sess.startingY - cfg.offset))
        = (1 - eq) * (sess.targetDistanceFromTop - sess.startingY - cfg.offset) := by
      intro eq
      ring
    rw [hrw, hrw, abs_mul, abs_mul, abs_of_nonneg (by linarith : (0:Rat) ≤ 1 - easing q2),
      abs_of_nonneg (by linarith : (0:Rat) ≤ 1 - easing q1)]
    exact mul_le_mul_of_nonneg_right (by linarith) (abs_nonneg _)

/-- Witness for C5: the completion frame of a concrete session (start
marker 1, duration 600, target offset 800, offset 20) lands exactly at
780 and schedules nothing. -/
theorem C5_witness :
    (step_vue domEx cfgPause linEasing sessEx [] 601 winDetached).w.scrollY = 780
    ∧ (step_vue domEx cfgPause linEasing sessEx [] 601 winDetached).w.scheduled
        = winDetached.scheduled := by
  have h := (C5_convergence domEx cfgPause linEasing sessEx [] winDetached 1
      (by norm_num [cfgPause]) (fun a b hab => hab) rfl rfl (by norm_num)
      (by norm_num [sessEx])).1 601 (by norm_num [cfgPause, sessEx])
  refine ⟨?_, h.2⟩
  rw [h.1]
  norm_num [sessEx, cfgPause]

end Scrollactive
